import Mathlib

/-!
Verification development for the Candidate-Recommendation resume-matching
pipeline.  The Python sources (`query_processor.py`, `app.py`,
`resume_ingest.py`) are shallowly embedded: vector-store and language-model
calls become explicit function parameters, float distances become rationals,
and the Gradio handler `process_resumes` becomes a state-passing function on
the corpus plus a discrete-time polling oracle.
-/

/-- A search result document: `page_content` plus the value of
`doc.metadata.get("ID")` (`none` when the metadata has no `ID` key). -/
structure Doc where
  page_content : String
  metadataID : Option String
deriving DecidableEq, Repr

/-- The vector store interface used by `ResumeMatcher`
(`similarity_search_with_score` and `similarity_search`, each taking the
query text and `k`). -/
structure VectorStore where
  similarity_search_with_score : String → Nat → List (Doc × ℚ)
  similarity_search : String → Nat → List Doc

/-- Python `min` over a nonempty list of scores (junk value `0` on `[]`,
which never occurs: groups always hold at least one score). -/
def listMin : List ℚ → ℚ
  | [] => 0
  | [x] => x
  | x :: y :: xs => min x (listMin (y :: xs))

/-- Step `id_scores[resume_id].append(score)` on an insertion-ordered
association list (the `defaultdict(list)` of `get_top_resume_ids_from_chunks`):
append to the existing group, or add a new group at the end. -/
def addScore : List (String × List ℚ) → String → ℚ → List (String × List ℚ)
  | [], rid, s => [(rid, [s])]
  | (r, ss) :: rest, rid, s =>
    if r = rid then (r, ss ++ [s]) :: rest
    else (r, ss) :: addScore rest rid s

/-- One iteration of the collection loop: skip the hit when
`doc.metadata.get("ID")` is missing or falsy (the empty string), otherwise
record its score under its resume id. -/
def collectStep (acc : List (String × List ℚ)) (ds : Doc × ℚ) : List (String × List ℚ) :=
  match ds.1.metadataID with
  | some rid => if rid = "" then acc else addScore acc rid ds.2
  | none => acc

/-- Steps 1–2 of `get_top_resume_ids_from_chunks`: collect resume ids and all
their scores, in first-seen order. -/
def collectScores (results : List (Doc × ℚ)) : List (String × List ℚ) :=
  results.foldl collectStep []

/-- The score list stored for `rid` (first matching group; `[]` if absent). -/
def lookupScores (rid : String) : List (String × List ℚ) → List ℚ
  | [] => []
  | (r, ss) :: rest => if r = rid then ss else lookupScores rid rest

/-- Reference view of grouping: the scores of all hits whose metadata `ID`
is exactly `rid`, in hit order. -/
def scoresOf (rid : String) (results : List (Doc × ℚ)) : List ℚ :=
  (results.filter (fun ds => decide (ds.1.metadataID = some rid))).map Prod.snd

/-- Insert into a list sorted ascending by `key`, placing the new element
before all elements of equal key (the new element stems from earlier in the
original list, so this realises a stable ascending sort). -/
def insertSorted (key : α → ℚ) (x : α) : List α → List α
  | [] => [x]
  | y :: ys => if key y < key x then y :: insertSorted key x ys else x :: y :: ys

/-- Stable ascending sort by a rational key: the semantics of Python
`sorted(l, key=...)`. -/
def sortByKey (key : α → ℚ) : List α → List α
  | [] => []
  | x :: xs => insertSorted key x (sortByKey key xs)

/-- Function `ResumeMatcher.get_top_resume_ids_from_chunks`: search top-`k` chunks for
the job description, group scores by resume id, sort groups by their best
(lowest) score with the stable Python sort, and return `(resume_id, best)`
pairs. -/
def get_top_resume_ids_from_chunks (vs : VectorStore) (job_description : String) (k : Nat) :
    List (String × ℚ) :=
  let results := vs.similarity_search_with_score job_description k
  let id_scores := collectScores results
  let sorted_ids := sortByKey (fun p => listMin p.2) id_scores
  sorted_ids.map (fun p => (p.1, listMin p.2))

/-- Function `ResumeMatcher.get_full_resume_by_id`: one broad top-100 search using the
resume id as query text, keep hits whose metadata `ID` equals the id, join
their texts with newlines. -/
def get_full_resume_by_id (vs : VectorStore) (resume_id : String) : String :=
  let docs := vs.similarity_search resume_id 100
  let chunks := (docs.filter (fun d => decide (d.metadataID = some resume_id))).map
    Doc.page_content
  String.intercalate "\n" chunks

/-- The evaluation prompt of `evaluate_resume_against_jd` (an f-string with
the job description and the resume text spliced in). -/
def buildPrompt (job_description resume_text : String) : String :=
  "\n            You are a senior technical recruiter with deep expertise in evaluating software engineering talent.\n\n            Your task is to evaluate a candidate\x27s resume against a job description and return a structured analysis in **valid JSON format**.\n\n            ---\n\n            **Job Description**:\n            "
  ++ job_description ++
  "\n\n            **Candidate Resume**:\n            "
  ++ resume_text ++
  "\n\n            ---\n\n            **Instructions**:\n            1. Identify the **top 2-3 most relevant matching criteria** between the job description and resume.\n            2. For each criterion:\n            - Clearly name the criterion (e.g., \"Python\", \"System Design\", etc.)\n            - Give a **score out of 10**\n            - Provide a **justification** (1-2 sentences)\n\n            3. Provide an overall match score out of 10.\n            4. Summarize the match in 2-3 sentences.\n\n            ---\n\n            Important : Return a **pure JSON object** using this exact structure — do not include markdown or Backticks or text before or after:\n\n            json:\n            \n            \"criteria\": [\n                \x7b\n                \"name\": \"Criterion Name\",\n                \"score\": 0,\n                \"justification\": \"Reason why the score was given\"\n                \x7d,\n                \x7b\n                \"name\": \"Criterion Name\",\n                \"score\": 0,\n                \"justification\": \"Reason why the score was given\"\n                \x7d\n            ],\n            \"overall_score\": 0,\n            \"summary\": \"Brief 2-3 sentence summary explaining how well the candidate fits the role.\"\n            \n            \n            "

/-- Function `ResumeMatcher.evaluate_resume_against_jd`: build the prompt and invoke
the language model once (the model is a parameter returning the response
content). -/
def evaluate_resume_against_jd (llm : String → String) (resume_text job_description : String) :
    String :=
  llm (buildPrompt job_description resume_text)

/-- Floor of a rational, computed with integer floor-division so that the
kernel can evaluate it. -/
def ratFloor (q : ℚ) : ℤ := Int.fdiv q.num q.den

/-- Round-half-to-even on rationals: the semantics of Python `round` at
integer granularity. -/
def roundHalfEven (q : ℚ) : ℤ :=
  let f := ratFloor q
  let r := q - f
  if r < 1 / 2 then f
  else if 1 / 2 < r then f + 1
  else if f % 2 = 0 then f else f + 1

/-- Python `round(q, 4)`: round to 4 decimal places, ties to even. -/
def round4 (q : ℚ) : ℚ := (roundHalfEven (q * 10000) : ℚ) / 10000

/-- One element of the `results` list built by `run_pipeline`. -/
structure MatchRes where
  resume_id : String
  cosine_similarity : ℚ
  evaluation : String
deriving DecidableEq, Repr

/-- Function `ResumeMatcher.run_pipeline`: rank resumes, and for each in ranked order
reconstruct its text, evaluate it, convert distance to similarity with
`round(1 - score, 4)`, and append the result. -/
def run_pipeline (vs : VectorStore) (llm : String → String) (job_description : String)
    (top_k : Nat) : List MatchRes :=
  let tops := get_top_resume_ids_from_chunks vs job_description top_k
  tops.map (fun p =>
    ⟨p.1, round4 (1 - p.2),
      evaluate_resume_against_jd llm (get_full_resume_by_id vs p.1) job_description⟩)

/-- Variant of `run_pipeline` with a fallible language model: Python exceptions from
`llm.invoke` are modelled in `Except`; the loop has no handler around the
per-candidate evaluation, so an error propagates out of the whole loop. -/
def run_pipelineE (vs : VectorStore) (llm : String → Except String String)
    (job_description : String) (top_k : Nat) : Except String (List MatchRes) :=
  let tops := get_top_resume_ids_from_chunks vs job_description top_k
  tops.foldlM
    (fun acc p => do
      let resume_text := get_full_resume_by_id vs p.1
      let ev ← llm (buildPrompt job_description resume_text)
      pure (acc ++ [⟨p.1, round4 (1 - p.2), ev⟩]))
    []

/-- JSON values as produced by `json.loads`. -/
inductive Json where
  | null
  | bool (b : Bool)
  | num (q : ℚ)
  | str (s : String)
  | arr (elems : List Json)
  | obj (fields : List (String × Json))

/-- JSON whitespace skipping (space, tab, newline, carriage return). -/
def skipWs : List Char → List Char
  | c :: cs => if c = ' ' ∨ c = '\t' ∨ c = '\n' ∨ c = '\r' then skipWs cs else c :: cs
  | [] => []

def digitVal? (c : Char) : Option Nat :=
  if '0' ≤ c ∧ c ≤ '9' then some (c.toNat - 48) else none

def hexVal? (c : Char) : Option Nat :=
  if '0' ≤ c ∧ c ≤ '9' then some (c.toNat - 48)
  else if 'a' ≤ c ∧ c ≤ 'f' then some (c.toNat - 87)
  else if 'A' ≤ c ∧ c ≤ 'F' then some (c.toNat - 55)
  else none

def takeDigits : List Char → List Nat × List Char
  | c :: cs =>
    match digitVal? c with
    | some d => let p := takeDigits cs; (d :: p.1, p.2)
    | none => ([], c :: cs)
  | [] => ([], [])

def digitsToNat (ds : List Nat) : Nat := ds.foldl (fun a d => 10 * a + d) 0

/-- JSON string body after the opening quote (standard escapes). -/
def parseStringBody : Nat → List Char → List Char → Option (String × List Char)
  | 0, _, _ => none
  | _ + 1, acc, '\"' :: cs => some (String.mk acc.reverse, cs)
  | n + 1, acc, '\\' :: esc =>
    (match esc with
     | '\"' :: cs => parseStringBody n ('\"' :: acc) cs
     | '\\' :: cs => parseStringBody n ('\\' :: acc) cs
     | '/' :: cs => parseStringBody n ('/' :: acc) cs
     | 'b' :: cs => parseStringBody n ('\x08' :: acc) cs
     | 'f' :: cs => parseStringBody n ('\x0c' :: acc) cs
     | 'n' :: cs => parseStringBody n ('\n' :: acc) cs
     | 'r' :: cs => parseStringBody n ('\r' :: acc) cs
     | 't' :: cs => parseStringBody n ('\t' :: acc) cs
     | 'u' :: a :: b :: c :: d :: cs => do
       let ha ← hexVal? a
       let hb ← hexVal? b
       let hc ← hexVal? c
       let hd ← hexVal? d
       parseStringBody n (Char.ofNat (((ha * 16 + hb) * 16 + hc) * 16 + hd) :: acc) cs
     | _ => none)
  | n + 1, acc, c :: cs => if c.toNat < 32 then none else parseStringBody n (c :: acc) cs
  | _ + 1, _, [] => none

def parseIntDigits (cs : List Char) : Option (Nat × List Char) :=
  match takeDigits cs with
  | ([], _) => none
  | (ds, rest) => if 1 < ds.length ∧ ds.headI = 0 then none else some (digitsToNat ds, rest)

/-- Kernel-evaluable power of ten (natural exponent). -/
def pow10N : ℕ → ℚ
  | 0 => 1
  | n + 1 => 10 * pow10N n

/-- Kernel-evaluable power of ten (integer exponent). -/
def pow10Z : ℤ → ℚ
  | Int.ofNat n => pow10N n
  | Int.negSucc n => 1 / pow10N (n + 1)

def parseFracPart (cs : List Char) : Option (Option ℚ × List Char) :=
  match cs with
  | '.' :: rest =>
    (match takeDigits rest with
     | ([], _) => none
     | (ds, rest2) => some (some ((digitsToNat ds : ℚ) / pow10N ds.length), rest2))
  | _ => some (none, cs)

def parseExpPart (cs : List Char) : Option (Option ℤ × List Char) :=
  match cs with
  | c :: rest =>
    if c = 'e' ∨ c = 'E' then
      let sr : ℤ × List Char :=
        match rest with
        | '+' :: r => (1, r)
        | '-' :: r => (-1, r)
        | r => (1, r)
      match takeDigits sr.2 with
      | ([], _) => none
      | (ds, rest2) => some (some (sr.1 * (digitsToNat ds : ℤ)), rest2)
    else some (none, c :: rest)
  | [] => some (none, [])

/-- JSON number (sign, integer part without leading zeros, optional
fraction and exponent).  A bare integer token yields an integer value, as
`json.loads` yields `int` there. -/
def parseNumber (cs : List Char) : Option (ℚ × List Char) := do
  let sc : Bool × List Char :=
    match cs with
    | '-' :: rest => (true, rest)
    | _ => (false, cs)
  let (ip, cs2) ← parseIntDigits sc.2
  let (fp?, cs3) ← parseFracPart cs2
  let (ex?, cs4) ← parseExpPart cs3
  match fp?, ex? with
  | none, none =>
    let iv : ℤ := if sc.1 then -(ip : ℤ) else (ip : ℤ)
    some ((iv : ℚ), cs4)
  | _, _ =>
    let mag : ℚ := ((ip : ℚ) + (fp?.getD 0)) * pow10Z (ex?.getD 0)
    some (if sc.1 then -mag else mag, cs4)

mutual
/-- Fuel-indexed recursive-descent JSON value parser. -/
def parseValue : Nat → List Char → Option (Json × List Char)
  | 0, _ => none
  | n + 1, cs =>
    match skipWs cs with
    | '\"' :: rest => (parseStringBody (rest.length + 1) [] rest).map
        (fun p => (Json.str p.1, p.2))
    | '\x7b' :: rest =>
      (match skipWs rest with
       | '\x7d' :: rest2 => some (Json.obj [], rest2)
       | rest2 => (parseFields n rest2).map (fun p => (Json.obj p.1, p.2)))
    | '[' :: rest =>
      (match skipWs rest with
       | ']' :: rest2 => some (Json.arr [], rest2)
       | rest2 => (parseElems n rest2).map (fun p => (Json.arr p.1, p.2)))
    | 't' :: 'r' :: 'u' :: 'e' :: rest => some (Json.bool true, rest)
    | 'f' :: 'a' :: 'l' :: 's' :: 'e' :: rest => some (Json.bool false, rest)
    | 'n' :: 'u' :: 'l' :: 'l' :: rest => some (Json.null, rest)
    | rest => (parseNumber rest).map (fun p => (Json.num p.1, p.2))

/-- One or more comma-separated `"key": value` object fields up to `\x7d`. -/
def parseFields : Nat → List Char → Option (List (String × Json) × List Char)
  | 0, _ => none
  | n + 1, cs =>
    match skipWs cs with
    | '\"' :: rest => do
      let (key, rest1) ← parseStringBody (rest.length + 1) [] rest
      match skipWs rest1 with
      | ':' :: rest2 => do
        let (v, rest3) ← parseValue n rest2
        (match skipWs rest3 with
         | ',' :: rest4 => do
           let (fs, rest5) ← parseFields n rest4
           some ((key, v) :: fs, rest5)
         | '\x7d' :: rest4 => some ([(key, v)], rest4)
         | _ => none)
      | _ => none
    | _ => none

/-- One or more comma-separated array elements up to `]`. -/
def parseElems : Nat → List Char → Option (List Json × List Char)
  | 0, _ => none
  | n + 1, cs => do
    let (v, rest) ← parseValue n cs
    match skipWs rest with
    | ',' :: rest1 => do
      let (vs, rest2) ← parseElems n rest1
      some (v :: vs, rest2)
    | ']' :: rest1 => some ([v], rest1)
    | _ => none
end

/-- Python `json.loads`: a complete JSON document, rejecting trailing data. -/
def jsonLoads (s : String) : Option Json :=
  match parseValue (s.length + 1) s.toList with
  | some (v, rest) => if skipWs rest = [] then some v else none
  | none => none

/-- The regex search `re.search` for an opening brace followed (DOTALL,
greedy) by anything up to a closing brace: the match runs from the first
`\x7b` that precedes the last `\x7d` through that last `\x7d`; `none` when no
such pair exists. -/
def extractBraceRegion (s : List Char) : Option (List Char) :=
  match s.reverse.findIdx? (fun c => c = '\x7d') with
  | none => none
  | some rj =>
    let j := s.length - 1 - rj
    match (s.take j).findIdx? (fun c => c = '\x7b') with
    | none => none
    | some i => some ((s.take (j + 1)).drop i)

/-- Python `dict.get` over parsed JSON object fields (later duplicate keys
overwrite earlier ones, as in a `dict` built by `json.loads`). -/
def dictGet (fields : List (String × Json)) (key : String) (dflt : Json) : Json :=
  match fields.reverse.find? (fun p => p.1 == key) with
  | some p => p.2
  | none => dflt

/-- The evaluation-decoding step of `process_resumes`: extract the regex
brace region from the raw model output, `json.loads` it, and fall back to an
error object when no region exists or parsing fails. -/
def decodeEvaluation (raw : String) : List (String × Json) :=
  match extractBraceRegion raw.toList with
  | none =>
    [("summary", Json.str "No JSON found in LLM response."), ("criteria", Json.arr [])]
  | some region =>
    match jsonLoads (String.mk region) with
    | some (Json.obj kvs) => kvs
    | _ =>
      [("summary", Json.str "Could not parse JSON response."), ("criteria", Json.arr [])]

/-- Lookup of the summary field with the default `Summary not available.`. -/
def summaryOf (kvs : List (String × Json)) : Json :=
  dictGet kvs "summary" (Json.str "Summary not available.")

/-- Lookup of the criteria field with the default empty list. -/
def criteriaOf (kvs : List (String × Json)) : Json :=
  dictGet kvs "criteria" (Json.arr [])

/-- The per-candidate display loop of `process_resumes`: each result row is
decoded independently of the others. -/
def processResultsDecode (results : List MatchRes) : List (List (String × Json)) :=
  results.map (fun r => decodeEvaluation r.evaluation)

/-- Modelled from the spec: scan for the first balanced brace region
(depth counting from the first opening brace). -/
def balancedFrom : List Char → Nat → List Char → Option (List Char)
  | acc, depth, c :: cs =>
    if c = '\x7b' then balancedFrom (c :: acc) (depth + 1) cs
    else if c = '\x7d' then
      if depth = 1 then some (c :: acc).reverse
      else if depth = 0 then none
      else balancedFrom (c :: acc) (depth - 1) cs
    else balancedFrom (c :: acc) depth cs
  | _, _, [] => none

/-- Modelled from the spec: the first balanced `\x7b...\x7d` region of the
text, if any. -/
def firstBalancedRegion (s : List Char) : Option (List Char) :=
  balancedFrom [] 0 (s.dropWhile (fun c => decide (c ≠ '\x7b')))

/-- Modelled from the spec: the Evaluator parsing contract — parse the first
balanced-brace region, with the degraded fallback
`summary: parse failure, criteria: []`. -/
def decodeEvaluationSpec (raw : String) : List (String × Json) :=
  match firstBalancedRegion raw.toList with
  | none => [("summary", Json.str "parse failure"), ("criteria", Json.arr [])]
  | some region =>
    match jsonLoads (String.mk region) with
    | some (Json.obj kvs) => kvs
    | _ => [("summary", Json.str "parse failure"), ("criteria", Json.arr [])]

/-- Substring test (Python `needle in haystack`). -/
def containsSub (needle hay : String) : Bool :=
  (List.range (hay.toList.length + 1)).any
    (fun i => needle.toList.isPrefixOf (hay.toList.drop i))

/-- The success test of one poll:
`results and marker_text in results[0].page_content`. -/
def markerFound (marker_text : String) (res : List Doc) : Bool :=
  match res with
  | [] => false
  | d :: _ => containsSub marker_text d.page_content

/-- A discrete-time oracle for `vectorstore.similarity_search` during the
waiting loop: the result (or transient exception) of the query issued `t`
seconds after the insert, for a given query text and `k`. -/
def PollOracle : Type := Nat → String → Nat → Except String (List Doc)

/-- The marker-waiting loop of `process_resumes`: poll
`similarity_search(marker_text, k=1)` once per one-second sleep while the
elapsed time is below the timeout; exceptions during a poll are caught and
polling continues.  Returns the poll times and whether the marker was seen. -/
def waitTrace (poll : PollOracle) (marker_text : String) : Nat → Nat → List Nat × Bool
  | 0, _ => ([], false)
  | fuel + 1, t =>
    let found :=
      match poll t marker_text 1 with
      | Except.ok res => markerFound marker_text res
      | Except.error _ => false
    if found then ([t], true)
    else
      let rest := waitTrace poll marker_text fuel (t + 1)
      (t :: rest.1, rest.2)

/-- A stored corpus chunk: its text, its metadata `ID` (none for the marker
chunk), and the `index_marker` metadata flag. -/
structure Chunk where
  page_content : String
  metadataID : Option String
  index_marker : Bool
deriving DecidableEq, Repr

/-- The external collaborators and per-run tokens of `process_resumes`:
the chunker `load_and_split_resumes`, the fresh `uuid` of the run, the
polling oracle, the vector store and language model used by the matcher. -/
structure AppEnv where
  chunker : List String → List Chunk
  uuid : String
  poll : PollOracle
  vs : VectorStore
  llm : String → String

def markerText (env : AppEnv) : String := "INDEX_MARKER_" ++ env.uuid

def markerChunk (env : AppEnv) : Chunk := ⟨markerText env, none, true⟩

/-- The outcome rendered by `process_resumes` (HTML markup abstracted). -/
inductive Outcome where
  | emptyInput
  | indexTimeout
  | noMatches
  | table (rows : List (MatchRes × List (String × Json)))

/-- Handler `process_resumes`: reject an empty upload list before touching the
database; otherwise delete the whole corpus (`delete_all_resumes_from_db`),
insert the fresh chunk batch plus one marker chunk, wait for the marker to
become searchable, run the matching pipeline, and decode each result row.
Returns the outcome and the final corpus contents. -/
def process_resumes (env : AppEnv) (resume_files : List String) (job_description : String)
    (corpus : List Chunk) (timeout : Nat) : Outcome × List Chunk :=
  if resume_files.isEmpty then (Outcome.emptyInput, corpus)
  else
    let chunks := env.chunker resume_files ++ [markerChunk env]
    if (waitTrace env.poll (markerText env) timeout 0).2 then
      let results := run_pipeline env.vs env.llm job_description 10
      if results.isEmpty then (Outcome.noMatches, chunks)
      else
        (Outcome.table (results.map (fun r => (r, decodeEvaluation r.evaluation))), chunks)
    else (Outcome.indexTimeout, chunks)

/-! ### Concrete instances used by examples, witnesses and counterexamples -/

/-- Store whose chunk search returns the worked example of the spec,
`[(A,0.3),(B,0.5),(A,0.1),(C,0.9)]`. -/
def exVS : VectorStore :=
  ⟨fun _ _ => [(⟨"cA1", some "A"⟩, 3/10), (⟨"cB", some "B"⟩, 1/2),
               (⟨"cA2", some "A"⟩, 1/10), (⟨"cC", some "C"⟩, 9/10)],
   fun _ _ => []⟩

/-- Store with a single candidate at distance 1/3 (a best distance whose
similarity is visibly changed by 4-decimal rounding). -/
def cvsThird : VectorStore :=
  ⟨fun _ _ => [(⟨"tA", some "A"⟩, 1/3)], fun _ _ => [⟨"tA", some "A"⟩]⟩

/-- Store with a single candidate at distance 1.00001, slightly above 1. -/
def cvsOverOne : VectorStore :=
  ⟨fun _ _ => [(⟨"tB", some "B"⟩, 100001/100000)], fun _ _ => []⟩

/-- Store with two ranked candidates. -/
def cvsTwo : VectorStore :=
  ⟨fun _ _ => [(⟨"tA", some "A"⟩, 1/10), (⟨"tB", some "B"⟩, 2/10)], fun _ _ => []⟩

/-- The parse-tolerance example output of the spec. -/
def exObj : String :=
  "sure, here: \x7b\"criteria\":[],\"overall_score\":7,\"summary\":\"ok\"\x7d thanks"

/-- Model output with a stray closing brace after a well-formed JSON object:
the first balanced region is valid JSON, the greedy first-to-last-brace
region is not. -/
def exGreedy : String := "\x7b\"summary\":\"ok\",\"criteria\":[]\x7d oops \x7d"

/-- An application environment whose marker polls always return no hits. -/
def envNoIndex : AppEnv :=
  ⟨fun _ => [⟨"chunk-r", some "r", false⟩], "u0", fun _ _ _ => Except.ok [],
   ⟨fun _ _ => [], fun _ _ => []⟩, fun _ => ""⟩

/-! ### Lemmas about the stable sort -/

theorem insertSorted_perm (key : α → ℚ) (x : α) :
    ∀ l : List α, List.Perm (insertSorted key x l) (x :: l)
  | [] => List.Perm.refl _
  | y :: ys => by
    unfold insertSorted
    split
    · exact (((insertSorted_perm key x ys).cons y).trans (List.Perm.swap x y ys))
    · exact List.Perm.refl _

theorem sortByKey_perm (key : α → ℚ) : ∀ l : List α, List.Perm (sortByKey key l) l
  | [] => List.Perm.refl _
  | x :: xs => (insertSorted_perm key x (sortByKey key xs)).trans ((sortByKey_perm key xs).cons x)

theorem insertSorted_pairwise (key : α → ℚ) (x : α) :
    ∀ l : List α, l.Pairwise (fun a b => key a ≤ key b) →
      (insertSorted key x l).Pairwise (fun a b => key a ≤ key b)
  | [], _ => List.pairwise_singleton _ _
  | y :: ys, h => by
    rw [List.pairwise_cons] at h
    unfold insertSorted
    split
    · rename_i hlt
      rw [List.pairwise_cons]
      constructor
      · intro z hz
        rcases List.mem_cons.mp ((insertSorted_perm key x ys).mem_iff.mp hz) with hz' | hz'
        · rw [hz']; exact le_of_lt hlt
        · exact h.1 z hz'
      · exact insertSorted_pairwise key x ys h.2
    · rename_i hge
      push_neg at hge
      rw [List.pairwise_cons]
      refine ⟨?_, List.pairwise_cons.mpr h⟩
      intro z hz
      rcases List.mem_cons.mp hz with hz' | hz'
      · rw [hz']; exact hge
      · exact le_trans hge (h.1 z hz')

theorem sortByKey_pairwise (key : α → ℚ) :
    ∀ l : List α, (sortByKey key l).Pairwise (fun a b => key a ≤ key b)
  | [] => List.Pairwise.nil
  | x :: xs => insertSorted_pairwise key x _ (sortByKey_pairwise key xs)

theorem insertSorted_filter_key (key : α → ℚ) (x : α) (v : ℚ) :
    ∀ l : List α, (insertSorted key x l).filter (fun a => decide (key a = v)) =
      if key x = v then x :: l.filter (fun a => decide (key a = v))
      else l.filter (fun a => decide (key a = v))
  | [] => by
    by_cases hx : key x = v <;> simp [insertSorted, List.filter, hx]
  | y :: ys => by
    unfold insertSorted
    split
    · rename_i hlt
      by_cases hy : key y = v
      · by_cases hx : key x = v
        · rw [hy, hx] at hlt
          exact absurd hlt (lt_irrefl v)
        · simp [List.filter, hy, hx, insertSorted_filter_key key x v ys]
      · simp [List.filter, hy, insertSorted_filter_key key x v ys]
    · by_cases hx : key x = v <;> simp [List.filter, hx]

theorem sortByKey_filter_key (key : α → ℚ) (v : ℚ) :
    ∀ l : List α, (sortByKey key l).filter (fun a => decide (key a = v)) =
      l.filter (fun a => decide (key a = v))
  | [] => rfl
  | x :: xs => by
    rw [sortByKey, insertSorted_filter_key key x v, sortByKey_filter_key key v xs]
    by_cases hx : key x = v <;> simp [List.filter, hx]

/-! ### Lemmas about score grouping -/

theorem collectStep_none (acc : List (String × List ℚ)) (ds : Doc × ℚ)
    (h : ds.1.metadataID = none) : collectStep acc ds = acc := by
  unfold collectStep
  rw [h]

theorem collectStep_falsy (acc : List (String × List ℚ)) (ds : Doc × ℚ) (rid : String)
    (h : ds.1.metadataID = some rid) (h0 : rid = "") : collectStep acc ds = acc := by
  unfold collectStep
  rw [h]
  exact if_pos h0

theorem collectStep_some (acc : List (String × List ℚ)) (ds : Doc × ℚ) (rid : String)
    (h : ds.1.metadataID = some rid) (h0 : ¬ rid = "") :
    collectStep acc ds = addScore acc rid ds.2 := by
  unfold collectStep
  rw [h]
  exact if_neg h0

theorem scoresOf_cons (rid : String) (ds : Doc × ℚ) (rest : List (Doc × ℚ)) :
    scoresOf rid (ds :: rest) =
      if ds.1.metadataID = some rid then ds.2 :: scoresOf rid rest else scoresOf rid rest := by
  unfold scoresOf
  by_cases h : ds.1.metadataID = some rid <;> simp [List.filter, h]

theorem lookupScores_addScore (r rid : String) (s : ℚ) :
    ∀ acc : List (String × List ℚ), lookupScores rid (addScore acc r s) =
      if r = rid then lookupScores rid acc ++ [s] else lookupScores rid acc
  | [] => by
    by_cases h : r = rid <;> simp [addScore, lookupScores, h]
  | (k, ss) :: rest => by
    by_cases hk : k = r
    · subst hk
      by_cases h : k = rid <;> simp [addScore, lookupScores, h]
    · by_cases h : k = rid
      · subst h
        have hr : ¬ r = k := fun he => hk he.symm
        simp [addScore, lookupScores, hk, hr]
      · simp [addScore, lookupScores, hk, h, lookupScores_addScore r rid s rest]

theorem addScore_keys (r : String) (s : ℚ) :
    ∀ acc : List (String × List ℚ), (addScore acc r s).map Prod.fst =
      if r ∈ acc.map Prod.fst then acc.map Prod.fst else acc.map Prod.fst ++ [r]
  | [] => by simp [addScore]
  | (k, ss) :: rest => by
    by_cases hk : k = r
    · subst hk
      simp [addScore]
    · have hr : ¬ r = k := fun he => hk he.symm
      rw [addScore, if_neg hk, List.map_cons, List.map_cons, addScore_keys r s rest]
      by_cases hmem : r ∈ rest.map Prod.fst
      · rw [if_pos hmem, if_pos (List.mem_cons_of_mem _ hmem)]
      · rw [if_neg hmem, if_neg (show r ∉ k :: rest.map Prod.fst by simp [hr, hmem])]
        rfl

theorem addScore_mem (r : String) (s : ℚ) :
    ∀ (acc : List (String × List ℚ)) (p : String × List ℚ), p ∈ addScore acc r s →
      (p.1 = r ∧ p.2 = [s]) ∨ (∃ q ∈ acc, p.1 = q.1 ∧ (p.2 = q.2 ∨ p.2 = q.2 ++ [s]))
  | [], p, hp => by
    rw [addScore] at hp
    have h := List.mem_singleton.mp hp
    exact Or.inl (by rw [h]; exact ⟨rfl, rfl⟩)
  | (k, ss) :: rest, p, hp => by
    by_cases hk : k = r
    · subst hk
      rw [addScore, if_pos rfl] at hp
      rcases List.mem_cons.mp hp with hp | hp
      · exact Or.inr ⟨(k, ss), List.mem_cons_self _ _, by rw [hp], by rw [hp]; exact Or.inr rfl⟩
      · exact Or.inr ⟨p, List.mem_cons_of_mem _ hp, rfl, Or.inl rfl⟩
    · rw [addScore, if_neg hk] at hp
      rcases List.mem_cons.mp hp with hp | hp
      · exact Or.inr ⟨(k, ss), List.mem_cons_self _ _, by rw [hp], by rw [hp]; exact Or.inl rfl⟩
      · rcases addScore_mem r s rest p hp with h | ⟨q, hq, hq2⟩
        · exact Or.inl h
        · exact Or.inr ⟨q, List.mem_cons_of_mem _ hq, hq2⟩

/-- Keys picked up by the collection loop are the non-falsy metadata ids. -/
theorem foldl_collect_keys (results : List (Doc × ℚ)) :
    ∀ acc : List (String × List ℚ),
      (∀ p ∈ acc, p.1 ≠ "") → ∀ p ∈ results.foldl collectStep acc, p.1 ≠ "" := by
  induction results with
  | nil => intro acc hacc p hp; exact hacc p hp
  | cons ds rest ih =>
    intro acc hacc
    rw [List.foldl_cons]
    refine ih (collectStep acc ds) ?_
    intro p hp
    rcases hds : ds.1.metadataID with _ | rid
    · rw [collectStep_none acc ds hds] at hp
      exact hacc p hp
    · by_cases hr : rid = ""
      · rw [collectStep_falsy acc ds rid hds hr] at hp
        exact hacc p hp
      · rw [collectStep_some acc ds rid hds hr] at hp
        rcases addScore_mem rid ds.2 acc p hp with ⟨h1, _⟩ | ⟨q, hq, hq2, _⟩
        · rw [h1]; exact hr
        · rw [hq2]; exact hacc q hq

theorem collectScores_keys_ne (results : List (Doc × ℚ)) :
    ∀ p ∈ collectScores results, p.1 ≠ "" :=
  foldl_collect_keys results [] (by simp)

theorem foldl_collect_nodup (results : List (Doc × ℚ)) :
    ∀ acc : List (String × List ℚ),
      ((acc.map Prod.fst).Nodup) → ((results.foldl collectStep acc).map Prod.fst).Nodup := by
  induction results with
  | nil => intro acc hacc; exact hacc
  | cons ds rest ih =>
    intro acc hacc
    rw [List.foldl_cons]
    refine ih (collectStep acc ds) ?_
    rcases hds : ds.1.metadataID with _ | rid
    · rw [collectStep_none acc ds hds]
      exact hacc
    · by_cases hr : rid = ""
      · rw [collectStep_falsy acc ds rid hds hr]
        exact hacc
      · rw [collectStep_some acc ds rid hds hr, addScore_keys]
        by_cases hmem : rid ∈ acc.map Prod.fst
        · rw [if_pos hmem]; exact hacc
        · rw [if_neg hmem]
          refine List.Nodup.append hacc (List.nodup_singleton rid) ?_
          intro a ha hb
          rw [List.mem_singleton] at hb
          subst hb
          exact hmem ha

theorem collectScores_keys_nodup (results : List (Doc × ℚ)) :
    ((collectScores results).map Prod.fst).Nodup :=
  foldl_collect_nodup results [] (by simp)

theorem foldl_collect_snd_ne (results : List (Doc × ℚ)) :
    ∀ acc : List (String × List ℚ),
      (∀ p ∈ acc, p.2 ≠ ([] : List ℚ)) → ∀ p ∈ results.foldl collectStep acc, p.2 ≠ [] := by
  induction results with
  | nil => intro acc hacc p hp; exact hacc p hp
  | cons ds rest ih =>
    intro acc hacc
    rw [List.foldl_cons]
    refine ih (collectStep acc ds) ?_
    intro p hp
    rcases hds : ds.1.metadataID with _ | rid
    · rw [collectStep_none acc ds hds] at hp
      exact hacc p hp
    · by_cases hr : rid = ""
      · rw [collectStep_falsy acc ds rid hds hr] at hp
        exact hacc p hp
      · rw [collectStep_some acc ds rid hds hr] at hp
        rcases addScore_mem rid ds.2 acc p hp with ⟨_, h2⟩ | ⟨q, hq, _, hq3⟩
        · rw [h2]; simp
        · rcases hq3 with h | h
          · rw [h]; exact hacc q hq
          · rw [h]; simp

theorem collectScores_snd_ne (results : List (Doc × ℚ)) :
    ∀ p ∈ collectScores results, p.2 ≠ [] :=
  foldl_collect_snd_ne results [] (by simp)

/-- The collection loop records, for each non-falsy id, exactly the scores
of the hits carrying that id, in hit order. -/
theorem foldl_collect_lookup (rid : String) (hrid : rid ≠ "") :
    ∀ (results : List (Doc × ℚ)) (acc : List (String × List ℚ)),
      lookupScores rid (results.foldl collectStep acc) =
        lookupScores rid acc ++ scoresOf rid results
  | [], acc => by simp [scoresOf]
  | ds :: rest, acc => by
    rw [List.foldl_cons, foldl_collect_lookup rid hrid rest (collectStep acc ds), scoresOf_cons]
    rcases hds : ds.1.metadataID with _ | r
    · rw [collectStep_none acc ds hds,
        if_neg (show ¬ (none : Option String) = some rid from fun h => Option.noConfusion h)]
    · by_cases hr : r = rid
      · subst hr
        rw [collectStep_some acc ds r hds hrid, lookupScores_addScore, if_pos rfl,
          if_pos rfl, List.append_assoc, List.singleton_append]
      · have hne : ¬ (some r : Option String) = some rid :=
          fun hcon => hr (Option.some.inj hcon)
        by_cases hr0 : r = ""
        · rw [collectStep_falsy acc ds r hds hr0, if_neg hne]
        · rw [collectStep_some acc ds r hds hr0, lookupScores_addScore, if_neg hr, if_neg hne]

theorem collectScores_lookup (rid : String) (hrid : rid ≠ "") (results : List (Doc × ℚ)) :
    lookupScores rid (collectScores results) = scoresOf rid results := by
  rw [collectScores, foldl_collect_lookup rid hrid results []]
  simp [lookupScores]

/-- Membership in a keyed list with distinct keys and nonempty groups is
determined by lookup. -/
theorem mem_iff_lookupScores :
    ∀ (l : List (String × List ℚ)), ((l.map Prod.fst).Nodup) →
      (∀ p ∈ l, p.2 ≠ ([] : List ℚ)) → ∀ (rid : String) (ss : List ℚ),
      ((rid, ss) ∈ l ↔ lookupScores rid l = ss ∧ ss ≠ [])
  | [], _, _, rid, ss => by simp [lookupScores]
  | (k, tt) :: rest, hnd, hne, rid, ss => by
    rw [List.map_cons, List.nodup_cons] at hnd
    constructor
    · intro hmem
      rcases List.mem_cons.mp hmem with h | h
      · rw [Prod.mk.injEq] at h
        rw [lookupScores, if_pos h.1.symm]
        refine ⟨h.2.symm, ?_⟩
        rw [h.2]
        exact hne (k, tt) (List.mem_cons_self _ _)
      · have hk : k ≠ rid := by
          intro he
          apply hnd.1
          show k ∈ List.map Prod.fst rest
          rw [he]
          exact List.mem_map_of_mem Prod.fst h
        rw [lookupScores, if_neg hk]
        exact (mem_iff_lookupScores rest hnd.2 (fun p hp => hne p (List.mem_cons_of_mem _ hp))
          rid ss).mp h
    · intro hl
      by_cases hk : k = rid
      · subst hk
        rw [lookupScores, if_pos rfl] at hl
        rw [← hl.1]
        exact List.mem_cons_self _ _
      · rw [lookupScores, if_neg hk] at hl
        exact List.mem_cons_of_mem _
          ((mem_iff_lookupScores rest hnd.2 (fun p hp => hne p (List.mem_cons_of_mem _ hp))
            rid ss).mpr hl)

/-- Groups of the collection loop are exactly the non-falsy ids with their
hit scores. -/
theorem mem_collectScores_iff (results : List (Doc × ℚ)) (rid : String) (ss : List ℚ) :
    (rid, ss) ∈ collectScores results ↔
      rid ≠ "" ∧ ss = scoresOf rid results ∧ ss ≠ [] := by
  constructor
  · intro hmem
    have hrid : rid ≠ "" := collectScores_keys_ne results (rid, ss) hmem
    have h2 := (mem_iff_lookupScores (collectScores results) (collectScores_keys_nodup results)
      (collectScores_snd_ne results) rid ss).mp hmem
    rw [collectScores_lookup rid hrid results] at h2
    exact ⟨hrid, h2.1.symm, h2.2⟩
  · intro hcon
    refine (mem_iff_lookupScores (collectScores results) (collectScores_keys_nodup results)
      (collectScores_snd_ne results) rid ss).mpr ⟨?_, hcon.2.2⟩
    rw [collectScores_lookup rid hcon.1 results, hcon.2.1]

/-! ### Minimum, unfolding equations, rounding -/

theorem listMin_mem : ∀ l : List ℚ, l ≠ [] → listMin l ∈ l
  | [], h => absurd rfl h
  | [x], _ => by simp [listMin]
  | x :: y :: xs, _ => by
    rw [listMin]
    rcases min_cases x (listMin (y :: xs)) with ⟨h, _⟩ | ⟨h, _⟩
    · rw [h]; exact List.mem_cons_self _ _
    · rw [h]; exact List.mem_cons_of_mem _ (listMin_mem (y :: xs) (by simp))

theorem listMin_le : ∀ l : List ℚ, ∀ a ∈ l, listMin l ≤ a
  | [], a, ha => absurd ha (List.not_mem_nil a)
  | [x], a, ha => by
    rw [List.mem_singleton] at ha
    rw [listMin, ha]
  | x :: y :: xs, a, ha => by
    rw [listMin]
    rcases List.mem_cons.mp ha with h | h
    · rw [h]; exact min_le_left _ _
    · exact le_trans (min_le_right _ _) (listMin_le (y :: xs) a h)

theorem get_top_eq (vs : VectorStore) (jd : String) (k : Nat) :
    get_top_resume_ids_from_chunks vs jd k =
      (sortByKey (fun p => listMin p.2)
        (collectScores (vs.similarity_search_with_score jd k))).map
        (fun p => (p.1, listMin p.2)) := rfl

theorem run_pipeline_eq (vs : VectorStore) (llm : String → String) (jd : String) (k : Nat) :
    run_pipeline vs llm jd k = (get_top_resume_ids_from_chunks vs jd k).map
      (fun p => ⟨p.1, round4 (1 - p.2),
        evaluate_resume_against_jd llm (get_full_resume_by_id vs p.1) jd⟩) := rfl

theorem get_full_eq (vs : VectorStore) (rid : String) :
    get_full_resume_by_id vs rid = String.intercalate "\n"
      (((vs.similarity_search rid 100).filter
        (fun d => decide (d.metadataID = some rid))).map Doc.page_content) := rfl

theorem get_top_mem_ne (vs : VectorStore) (jd : String) (k : Nat) (p : String × ℚ)
    (hp : p ∈ get_top_resume_ids_from_chunks vs jd k) : p.1 ≠ "" := by
  rw [get_top_eq] at hp
  obtain ⟨q, hq, hfq⟩ := List.mem_map.mp hp
  have hq2 := ((sortByKey_perm _ _).mem_iff).mp hq
  have h3 := collectScores_keys_ne _ q hq2
  rw [← hfq]
  exact h3

theorem get_top_keys_nodup (vs : VectorStore) (jd : String) (k : Nat) :
    ((get_top_resume_ids_from_chunks vs jd k).map Prod.fst).Nodup := by
  rw [get_top_eq, List.map_map]
  have hcomp : (Prod.fst ∘ fun p : String × List ℚ => (p.1, listMin p.2)) = Prod.fst := rfl
  rw [hcomp]
  exact (((sortByKey_perm _ _).map Prod.fst).nodup_iff).mpr (collectScores_keys_nodup _)

theorem run_pipeline_ids (vs : VectorStore) (llm : String → String) (jd : String) (k : Nat) :
    (run_pipeline vs llm jd k).map MatchRes.resume_id =
      (get_top_resume_ids_from_chunks vs jd k).map Prod.fst := by
  rw [run_pipeline_eq, List.map_map]
  rfl

theorem ratFloor_eq_floor (q : ℚ) : ratFloor q = ⌊q⌋ := by
  rw [Rat.floor_def]
  exact Int.fdiv_eq_ediv _ (Int.natCast_nonneg _)

theorem roundHalfEven_le_neg_one (q : ℚ) (h : q < -(1/2)) : roundHalfEven q ≤ -1 := by
  have hfl : (⌊q⌋ : ℚ) ≤ q := Int.floor_le q
  have hf1 : ⌊q⌋ ≤ -1 := by
    have hflt : (⌊q⌋ : ℚ) < -(1/2) := lt_of_le_of_lt hfl h
    by_contra hcon
    push_neg at hcon
    have h0 : (0 : ℤ) ≤ ⌊q⌋ := by omega
    have h0' : (0 : ℚ) ≤ (⌊q⌋ : ℚ) := by exact_mod_cast h0
    linarith
  have hsub : (1/2 : ℚ) ≤ q - ⌊q⌋ → ⌊q⌋ ≤ -2 := by
    intro hh
    have h2 : (⌊q⌋ : ℚ) < -1 := by linarith
    by_contra hcon
    push_neg at hcon
    have h3 : (-1 : ℤ) ≤ ⌊q⌋ := by omega
    have h3' : ((-1 : ℤ) : ℚ) ≤ (⌊q⌋ : ℚ) := by exact_mod_cast h3
    push_cast at h3'
    linarith
  simp only [roundHalfEven, ratFloor_eq_floor]
  split_ifs with h1 h2 h3
  · exact hf1
  · have := hsub (by linarith [not_lt.mp h1])
    omega
  · exact hf1
  · have := hsub (by linarith [not_lt.mp h1])
    omega

theorem round4_neg (q : ℚ) (h : q < -(1/20000)) : round4 q < 0 := by
  have h2 : q * 10000 < -(1/2) := by linarith
  have h3 := roundHalfEven_le_neg_one (q * 10000) h2
  rw [round4]
  have h4 : ((roundHalfEven (q * 10000) : ℤ) : ℚ) ≤ -1 := by exact_mod_cast h3
  have hpos : (0 : ℚ) < 10000 := by norm_num
  apply div_neg_of_neg_of_pos _ hpos
  linarith

/-! ### Claim theorems -/

/-- C1: for every list of chunk-level scored hits,
`get_top_resume_ids_from_chunks` groups the hits by document id, assigns
each document the minimum of the distances of its hits as best distance, and
returns the documents sorted ascending by best distance with ties broken by
the stable first-seen order; on the hits
`[(A,0.3),(B,0.5),(A,0.1),(C,0.9)]` it returns `[A(0.1), B(0.5), C(0.9)]`.
Grouping is stated by membership (a pair is returned iff its id is a
non-falsy hit id and its distance is the minimum of the scores of that id),
sortedness by pairwise order on the distances, and first-seen tie order by
the fixed-distance sublists agreeing with the first-seen group order. -/
theorem C1_aggregation :
    (∀ (vs : VectorStore) (jd : String) (k : Nat) (rid : String) (d : ℚ),
        ((rid, d) ∈ get_top_resume_ids_from_chunks vs jd k ↔
          rid ≠ "" ∧ scoresOf rid (vs.similarity_search_with_score jd k) ≠ [] ∧
            d = listMin (scoresOf rid (vs.similarity_search_with_score jd k))))
    ∧ (∀ l : List ℚ, l ≠ [] → listMin l ∈ l ∧ ∀ a ∈ l, listMin l ≤ a)
    ∧ (∀ (vs : VectorStore) (jd : String) (k : Nat),
        (get_top_resume_ids_from_chunks vs jd k).Pairwise (fun a b => a.2 ≤ b.2))
    ∧ (∀ (vs : VectorStore) (jd : String) (k : Nat) (v : ℚ),
        (get_top_resume_ids_from_chunks vs jd k).filter (fun p => decide (p.2 = v)) =
          ((collectScores (vs.similarity_search_with_score jd k)).map
            (fun p => (p.1, listMin p.2))).filter (fun p => decide (p.2 = v)))
    ∧ get_top_resume_ids_from_chunks exVS "jd" 10 =
        [("A", 1/10), ("B", 1/2), ("C", 9/10)] := by
  refine ⟨?_, ?_, ?_, ?_, by decide!⟩
  · intro vs jd k rid d
    rw [get_top_eq, List.mem_map]
    constructor
    · rintro ⟨⟨rid2, ss⟩, hp, hfp⟩
      simp only [Prod.mk.injEq] at hfp
      obtain ⟨hr, hd⟩ := hfp
      subst hr
      subst hd
      have h3 := (mem_collectScores_iff _ rid2 ss).mp (((sortByKey_perm _ _).mem_iff).mp hp)
      exact ⟨h3.1, h3.2.1 ▸ h3.2.2, by rw [h3.2.1]⟩
    · rintro ⟨h1, h2, h3⟩
      refine ⟨(rid, scoresOf rid (vs.similarity_search_with_score jd k)), ?_, ?_⟩
      · exact ((sortByKey_perm _ _).mem_iff).mpr
          ((mem_collectScores_iff _ rid _).mpr ⟨h1, rfl, h2⟩)
      · rw [Prod.mk.injEq]
        exact ⟨rfl, h3.symm⟩
  · intro l hl
    exact ⟨listMin_mem l hl, listMin_le l⟩
  · intro vs jd k
    rw [get_top_eq]
    rw [List.pairwise_map]
    exact sortByKey_pairwise _ _
  · intro vs jd k v
    rw [get_top_eq, List.filter_map, List.filter_map]
    exact congrArg _ (sortByKey_filter_key (fun p : String × List ℚ => listMin p.2) v _)

/-- Witness for C1 at concrete inputs: the membership characterisation and
the minimum property, instantiated on the worked example. -/
theorem C1_aggregation_witness :
    ("A", (1:ℚ)/10) ∈ get_top_resume_ids_from_chunks exVS "jd" 10 ∧
      listMin [(3:ℚ)/10, 1/10] ∈ [(3:ℚ)/10, 1/10] :=
  ⟨(C1_aggregation.1 exVS "jd" 10 "A" (1/10)).mpr
      ⟨by decide, by decide!, by decide!⟩,
    (C1_aggregation.2.1 [(3:ℚ)/10, 1/10] (by decide)).1⟩

/-- C2 counterexample: at best distance 1/3 the reported similarity is the
4-decimal rounded value 6667/10000, which differs from `1 - 1/3`, so
`run_pipeline` does not compute `similarity = 1 - best_distance` exactly. -/
theorem C2_counterexample :
    get_top_resume_ids_from_chunks cvsThird "jd" 10 = [("A", 1/3)] ∧
    (run_pipeline cvsThird (fun _ => "ev") "jd" 10).map MatchRes.cosine_similarity =
      [6667/10000] ∧
    (6667/10000 : ℚ) ≠ 1 - 1/3 :=
  ⟨by decide!, by decide!, by decide!⟩

/-- C2 (amended): `run_pipeline` processes the ranked candidates in ranked
order — for each it reconstructs the full text, evaluates it against the job
description, computes the similarity as `1 - best_distance` rounded to 4
decimal places, and appends one result — returning the full ordered list
with exactly one result per ranked candidate; zero candidates yield an empty
list rather than an error. -/
theorem C2_pipeline (vs : VectorStore) (llm : String → String) (jd : String) (k : Nat) :
    run_pipeline vs llm jd k = (get_top_resume_ids_from_chunks vs jd k).map
      (fun p => ⟨p.1, round4 (1 - p.2),
        evaluate_resume_against_jd llm (get_full_resume_by_id vs p.1) jd⟩)
    ∧ (run_pipeline vs llm jd k).length = (get_top_resume_ids_from_chunks vs jd k).length
    ∧ (get_top_resume_ids_from_chunks vs jd k = [] → run_pipeline vs llm jd k = []) := by
  refine ⟨run_pipeline_eq vs llm jd k, ?_, ?_⟩
  · rw [run_pipeline_eq, List.length_map]
  · intro h
    rw [run_pipeline_eq, h]
    rfl

/-- Witness for C2 at a concrete input: a store with no candidates yields
the empty result list. -/
theorem C2_pipeline_witness :
    run_pipeline ⟨fun _ _ => [], fun _ _ => []⟩ (fun _ => "") "jd" 10 = [] :=
  (C2_pipeline ⟨fun _ _ => [], fun _ _ => []⟩ (fun _ => "") "jd" 10).2.2 (by decide!)

/-- C6 counterexample: the reported similarity is rounded to 4 decimal
places, so at best distance 1/3 it differs from `1 - best_distance`, and at
best distance 1.00001 (greater than 1) it is exactly 0, not negative. -/
theorem C6_counterexample :
    (get_top_resume_ids_from_chunks cvsThird "jd" 10 = [("A", 1/3)] ∧
      (run_pipeline cvsThird (fun _ => "") "jd" 10).map MatchRes.cosine_similarity =
        [6667/10000] ∧ (6667/10000 : ℚ) ≠ 1 - 1/3) ∧
    (get_top_resume_ids_from_chunks cvsOverOne "jd" 10 = [("B", 100001/100000)] ∧
      (run_pipeline cvsOverOne (fun _ => "") "jd" 10).map MatchRes.cosine_similarity =
        [0] ∧ ¬ ((0:ℚ) < 0)) :=
  ⟨⟨by decide!, by decide!, by decide!⟩, ⟨by decide!, by decide!, by decide!⟩⟩

/-- C6 (amended): the similarity reported in each result equals
`1 - best_distance` rounded to 4 decimal places (round half to even) with no
clamping: best distance 0.1 gives 0.9, best distance 1.0 gives 0.0, and a
distance exceeding `1 + 0.00005` yields a negative similarity. -/
theorem C6_similarity :
    (∀ (vs : VectorStore) (llm : String → String) (jd : String) (k : Nat)
        (r : MatchRes), r ∈ run_pipeline vs llm jd k →
      ∃ d, (r.resume_id, d) ∈ get_top_resume_ids_from_chunks vs jd k ∧
        r.cosine_similarity = round4 (1 - d))
    ∧ round4 (1 - 1/10) = 9/10
    ∧ round4 (1 - 1) = 0
    ∧ (∀ d : ℚ, 1 + 1/20000 < d → round4 (1 - d) < 0) := by
  refine ⟨?_, by decide!, by decide!, ?_⟩
  · intro vs llm jd k r hr
    rw [run_pipeline_eq] at hr
    obtain ⟨p, hp, hfp⟩ := List.mem_map.mp hr
    refine ⟨p.2, ?_, ?_⟩
    · rw [← hfp]
      exact hp
    · rw [← hfp]
  · intro d hd
    exact round4_neg (1 - d) (by linarith)

/-- Witness for C6 at concrete inputs: the membership part on a one-
candidate store, and negativity at distance 2. -/
theorem C6_similarity_witness :
    (∃ d, (("A" : String), d) ∈ get_top_resume_ids_from_chunks cvsTwo "jd" 10 ∧
      (6667/10000 : ℚ) = round4 (1 - d)) ∨ round4 (1 - 2) < 0 :=
  Or.inr (C6_similarity.2.2.2 2 (by decide!))

/-- C8: `get_full_resume_by_id` issues a single broad top-100 similarity
query using the document id itself as the query text (the result depends
only on that one query), keeps exactly the hits whose metadata id matches
the requested id (in retrieval order, as a sublist of the hits), and
returns their chunk texts joined in that order. -/
theorem C8_full_text :
    (∀ (vs : VectorStore) (rid : String),
        get_full_resume_by_id vs rid = String.intercalate "\n"
          (((vs.similarity_search rid 100).filter
            (fun d => decide (d.metadataID = some rid))).map Doc.page_content))
    ∧ (∀ (vs1 vs2 : VectorStore) (rid : String),
        vs1.similarity_search rid 100 = vs2.similarity_search rid 100 →
          get_full_resume_by_id vs1 rid = get_full_resume_by_id vs2 rid)
    ∧ (∀ (vs : VectorStore) (rid : String),
        ((vs.similarity_search rid 100).filter
          (fun d => decide (d.metadataID = some rid))).Sublist
            (vs.similarity_search rid 100)) := by
  refine ⟨get_full_eq, ?_, ?_⟩
  · intro vs1 vs2 rid h
    rw [get_full_eq, get_full_eq, h]
  · intro vs rid
    exact List.filter_sublist _

/-- Witness for C8 at a concrete input: two stores with equal top-100
answers for the queried id reconstruct the same text. -/
theorem C8_full_text_witness :
    get_full_resume_by_id ⟨fun _ _ => [], fun _ _ => [⟨"t", some "A"⟩]⟩ "A" =
      get_full_resume_by_id ⟨fun _ _ => [(⟨"t", some "A"⟩, 1)], fun _ _ => [⟨"t", some "A"⟩]⟩ "A" :=
  C8_full_text.2.1 _ _ "A" rfl

/-- C10: hits lacking an `ID` metadata key or carrying a falsy (empty) id —
in particular the marker chunk — are silently dropped during aggregation;
every candidate returned by `get_top_resume_ids_from_chunks`, and every
result of `run_pipeline`, carries a non-empty document id, and each id
appears at most once in the output. -/
theorem C10_id_invariants :
    (∀ (pre post : List (Doc × ℚ)) (doc : Doc) (s : ℚ),
        (doc.metadataID = none ∨ doc.metadataID = some "") →
        collectScores (pre ++ (doc, s) :: post) = collectScores (pre ++ post))
    ∧ (∀ (vs : VectorStore) (jd : String) (k : Nat) (p : String × ℚ),
        p ∈ get_top_resume_ids_from_chunks vs jd k → p.1 ≠ "")
    ∧ (∀ (vs : VectorStore) (jd : String) (k : Nat),
        ((get_top_resume_ids_from_chunks vs jd k).map Prod.fst).Nodup)
    ∧ (∀ (vs : VectorStore) (llm : String → String) (jd : String) (k : Nat),
        ((run_pipeline vs llm jd k).map MatchRes.resume_id).Nodup
          ∧ ∀ r ∈ run_pipeline vs llm jd k, r.resume_id ≠ "") := by
  refine ⟨?_, get_top_mem_ne, get_top_keys_nodup, ?_⟩
  · intro pre post doc s hfalsy
    rw [collectScores, collectScores, List.foldl_append, List.foldl_append, List.foldl_cons]
    rcases hfalsy with h | h
    · rw [collectStep_none _ _ h]
    · rw [collectStep_falsy _ _ "" h rfl]
  · intro vs llm jd k
    constructor
    · rw [run_pipeline_ids]
      exact get_top_keys_nodup vs jd k
    · intro r hr
      rw [run_pipeline_eq] at hr
      obtain ⟨p, hp, hfp⟩ := List.mem_map.mp hr
      have := get_top_mem_ne vs jd k p hp
      rw [← hfp]
      exact this

/-- Witness for C10 at a concrete input: a markerless-metadata hit is
dropped from the grouping. -/
theorem C10_id_invariants_witness :
    collectScores [(⟨"marker", none⟩, (1:ℚ))] = collectScores [] :=
  C10_id_invariants.1 [] [] ⟨"marker", none⟩ 1 (Or.inl rfl)

/-! ### Waiter and orchestration lemmas -/

/-- When no poll ever sees the marker, the waiting loop polls at every tick
up to the timeout and reports failure. -/
theorem waitTrace_never (poll : PollOracle) (marker : String)
    (h : ∀ t res, poll t marker 1 = Except.ok res → markerFound marker res = false) :
    ∀ fuel start : Nat, waitTrace poll marker fuel start = (List.range' start fuel, false)
  | 0, start => by simp [waitTrace]
  | fuel + 1, start => by
    have hfound : (match poll start marker 1 with
        | Except.ok res => markerFound marker res
        | Except.error _ => false) = false := by
      rcases hp : poll start marker 1 with e | res
      · rfl
      · exact h start res hp
    simp only [waitTrace, hfound, if_neg Bool.false_ne_true,
      waitTrace_never poll marker h fuel (start + 1), List.range'_succ]

/-- With a nonempty upload list, the corpus after `process_resumes` is the
fresh batch plus the marker chunk, regardless of the prior corpus and of
the waiting or matching outcome. -/
theorem process_resumes_snd (env : AppEnv) (files : List String) (jd : String)
    (corpus : List Chunk) (timeout : Nat) (hne : files ≠ []) :
    (process_resumes env files jd corpus timeout).2 =
      env.chunker files ++ [markerChunk env] := by
  rw [process_resumes, if_neg (by simp [hne])]
  dsimp only
  split
  · split <;> rfl
  · rfl

/-- When the language model raises on the first ranked candidate, the
pipeline loop propagates that error. -/
theorem run_pipelineE_abort (vs : VectorStore) (llm : String → Except String String)
    (jd : String) (k : Nat) (rid : String) (d : ℚ) (rest : List (String × ℚ)) (e : String)
    (htop : get_top_resume_ids_from_chunks vs jd k = (rid, d) :: rest)
    (herr : llm (buildPrompt jd (get_full_resume_by_id vs rid)) = Except.error e) :
    run_pipelineE vs llm jd k = Except.error e := by
  unfold run_pipelineE
  rw [htop, List.foldlM_cons]
  dsimp only
  rw [herr]
  rfl

/-- C3: if the marker chunk is never returned by search, `process_resumes`
fails the whole run with the index-timeout error after polling once per
one-second delay at every tick below the timeout (so failure happens only
after the configured timeout elapses, not immediately), and it leaves the
corpus in the replaced state (fresh batch plus marker chunk). -/
theorem C3_index_timeout (env : AppEnv) (files : List String) (jd : String)
    (corpus : List Chunk) (timeout : Nat) (hne : files ≠ [])
    (hnever : ∀ t res, env.poll t (markerText env) 1 = Except.ok res →
      markerFound (markerText env) res = false) :
    process_resumes env files jd corpus timeout =
      (Outcome.indexTimeout, env.chunker files ++ [markerChunk env])
    ∧ (waitTrace env.poll (markerText env) timeout 0).1 = List.range timeout
    ∧ (0 < timeout → (waitTrace env.poll (markerText env) timeout 0).1 ≠ []) := by
  have hw := waitTrace_never env.poll (markerText env) hnever timeout 0
  refine ⟨?_, ?_, ?_⟩
  · rw [process_resumes, if_neg (by simp [hne])]
    dsimp only
    rw [hw]
    simp
  · rw [hw, List.range_eq_range']
  · intro ht
    rw [hw]
    dsimp only
    intro hcon
    have hlen := congrArg List.length hcon
    rw [List.length_range'] at hlen
    simp at hlen
    omega

/-- Witness for C3 at a concrete input: files uploaded, polls always empty,
timeout 60. -/
theorem C3_index_timeout_witness :
    process_resumes envNoIndex ["resume2.pdf"] "desc" [] 60 =
      (Outcome.indexTimeout, envNoIndex.chunker ["resume2.pdf"] ++ [markerChunk envNoIndex]) :=
  (C3_index_timeout envNoIndex ["resume2.pdf"] "desc" [] 60 (by decide)
    (fun _ res h => by
      injection h with h2
      rw [← h2]
      rfl)).1

/-- C4 counterexample: on output with no JSON the fallback summary
is `No JSON found in LLM response.`, not `parse failure`; and on output
whose first balanced-brace region is valid JSON followed by a stray closing
brace, the decoder fails (it greedily grabs everything up to the last brace)
while a first-balanced-region decoder succeeds. -/
theorem C4_counterexample :
    decodeEvaluation "not json at all" =
      [("summary", Json.str "No JSON found in LLM response."), ("criteria", Json.arr [])]
    ∧ summaryOf (decodeEvaluation "not json at all") ≠ Json.str "parse failure"
    ∧ decodeEvaluation exGreedy =
      [("summary", Json.str "Could not parse JSON response."), ("criteria", Json.arr [])]
    ∧ decodeEvaluationSpec exGreedy = [("summary", Json.str "ok"), ("criteria", Json.arr [])] := by
  refine ⟨rfl, ?_, rfl, rfl⟩
  intro h
  exact absurd (Json.str.inj h) (by decide)

/-- C4 (amended): the decoder takes the greedy region from the first opening
brace to the last closing brace (tolerating prose around it) and parses it
as JSON; the worked example parses to
`criteria = [], overall_score = 7, summary = "ok"`; when no brace region
exists it returns the fallback object with summary
`No JSON found in LLM response.`, and when the region fails to parse it
returns the fallback with summary `Could not parse JSON response.` — in all
cases without raising. -/
theorem C4_decode :
    decodeEvaluation exObj =
      [("criteria", Json.arr []), ("overall_score", Json.num 7), ("summary", Json.str "ok")]
    ∧ (∀ raw : String, extractBraceRegion raw.toList = none →
        decodeEvaluation raw =
          [("summary", Json.str "No JSON found in LLM response."), ("criteria", Json.arr [])])
    ∧ (∀ (raw : String) (region : List Char), extractBraceRegion raw.toList = some region →
        (∀ kvs, jsonLoads (String.mk region) = some (Json.obj kvs) →
          decodeEvaluation raw = kvs)
        ∧ (jsonLoads (String.mk region) = none →
          decodeEvaluation raw =
            [("summary", Json.str "Could not parse JSON response."),
              ("criteria", Json.arr [])])) := by
  refine ⟨rfl, ?_, ?_⟩
  · intro raw h
    unfold decodeEvaluation
    rw [h]
  · intro raw region h
    constructor
    · intro kvs hk
      unfold decodeEvaluation
      rw [h]
      dsimp only
      rw [hk]
    · intro hk
      unfold decodeEvaluation
      rw [h]
      dsimp only
      rw [hk]

/-- Witness for C4 at a concrete input: a braceless output decodes to the
no-JSON fallback. -/
theorem C4_decode_witness :
    decodeEvaluation "no braces here" =
      [("summary", Json.str "No JSON found in LLM response."), ("criteria", Json.arr [])] :=
  C4_decode.2.1 "no braces here" rfl

/-- C5 counterexample: with two ranked candidates and a language model that
raises on the evaluation of the first candidate, the whole pipeline run aborts
with that error — the second candidate is never processed. -/
theorem C5_counterexample :
    get_top_resume_ids_from_chunks cvsTwo "jd" 10 = [("A", 1/10), ("B", 2/10)]
    ∧ run_pipelineE cvsTwo (fun _ => Except.error "boom") "jd" 10 = Except.error "boom" :=
  ⟨by decide!,
    run_pipelineE_abort cvsTwo (fun _ => Except.error "boom") "jd" 10 "A" (1/10)
      [("B", 2/10)] "boom" (by decide!) rfl⟩

/-- C5 (amended): a JSON-parse failure during the evaluation of one candidate is
isolated — each row of the decoded results depends only on the model output
of that candidate, so changing or degrading one entry never touches the
others — but an exception raised by the language-model call itself
propagates and aborts the whole pipeline run. -/
theorem C5_isolation :
    (∀ (pre post : List MatchRes) (r : MatchRes),
        processResultsDecode (pre ++ r :: post) =
          processResultsDecode pre ++ decodeEvaluation r.evaluation :: processResultsDecode post)
    ∧ (∀ results : List MatchRes, (processResultsDecode results).length = results.length)
    ∧ (∀ (vs : VectorStore) (llm : String → Except String String) (jd : String) (k : Nat)
        (rid : String) (d : ℚ) (rest : List (String × ℚ)) (e : String),
        get_top_resume_ids_from_chunks vs jd k = (rid, d) :: rest →
        llm (buildPrompt jd (get_full_resume_by_id vs rid)) = Except.error e →
        run_pipelineE vs llm jd k = Except.error e) := by
  refine ⟨?_, ?_, fun vs llm jd k rid d rest e => run_pipelineE_abort vs llm jd k rid d rest e⟩
  · intro pre post r
    simp [processResultsDecode]
  · intro results
    simp [processResultsDecode]

/-- Witness for C5 at a concrete input: the abort half applied to the
two-candidate store. -/
theorem C5_isolation_witness :
    run_pipelineE cvsTwo (fun _ => Except.error "err2") "jd" 10 = Except.error "err2" :=
  C5_isolation.2.2 cvsTwo (fun _ => Except.error "err2") "jd" 10 "A" (1/10) [("B", 2/10)]
    "err2" (by decide!) rfl

/-- C7 counterexample: with one uploaded file and an empty job description
the pipeline starts anyway (no empty-input error: it replaces the corpus and
runs to the index-wait), so a missing job description is not checked; and
with zero documents the outcome is the empty-input error message, not a
"no matches" result. -/
theorem C7_counterexample :
    (process_resumes envNoIndex ["resume.pdf"] "" [] 60).1 = Outcome.indexTimeout
    ∧ Outcome.indexTimeout ≠ Outcome.emptyInput
    ∧ (process_resumes envNoIndex ["resume.pdf"] "" [] 60).2 ≠ []
    ∧ (process_resumes envNoIndex [] "jd" [] 60).1 = Outcome.emptyInput
    ∧ Outcome.emptyInput ≠ Outcome.noMatches := by
  exact ⟨rfl, fun h => Outcome.noConfusion h, by decide, rfl, fun h => Outcome.noConfusion h⟩

/-- C7 (amended): if no documents are supplied, `process_resumes` surfaces
the empty-input error immediately and leaves the corpus untouched (the
Corpus Store is not contacted); an empty job description is not checked, so
with files present the pipeline always starts and replaces the corpus. -/
theorem C7_empty_input (env : AppEnv) (jd : String) (corpus : List Chunk) (timeout : Nat) :
    process_resumes env [] jd corpus timeout = (Outcome.emptyInput, corpus)
    ∧ (∀ files : List String, files ≠ [] →
        (process_resumes env files jd corpus timeout).2 =
          env.chunker files ++ [markerChunk env]) :=
  ⟨rfl, fun files hne => process_resumes_snd env files jd corpus timeout hne⟩

/-- Witness for C7 at a concrete input: a nonempty upload with an empty job
description still replaces the corpus. -/
theorem C7_empty_input_witness :
    (process_resumes envNoIndex ["b.pdf"] "" [] 1).2 =
      envNoIndex.chunker ["b.pdf"] ++ [markerChunk envNoIndex] :=
  (C7_empty_input envNoIndex "" [] 1).2 ["b.pdf"] (by decide)

/-- C9: every run with a nonempty upload performs a full corpus replacement
— the final corpus is exactly the fresh batch plus one marker chunk,
independent of whatever corpus an earlier run (or anything else) left
behind — so running ingestion twice with the same input leaves exactly one
copy of each non-marker chunk that the chunker emits once. -/
theorem C9_full_replace (env1 env2 : AppEnv) (files : List String) (jd1 jd2 : String)
    (corpus0 : List Chunk) (timeout : Nat) (hne : files ≠ []) :
    (process_resumes env2 files jd2
        (process_resumes env1 files jd1 corpus0 timeout).2 timeout).2 =
      env2.chunker files ++ [markerChunk env2]
    ∧ (∀ corpusA corpusB : List Chunk,
        (process_resumes env2 files jd2 corpusA timeout).2 =
          (process_resumes env2 files jd2 corpusB timeout).2)
    ∧ (∀ c : Chunk, c.index_marker = false →
        ((process_resumes env2 files jd2
          (process_resumes env1 files jd1 corpus0 timeout).2 timeout).2).count c =
          (env2.chunker files).count c) := by
  refine ⟨process_resumes_snd env2 files jd2 _ timeout hne, ?_, ?_⟩
  · intro corpusA corpusB
    rw [process_resumes_snd env2 files jd2 corpusA timeout hne,
      process_resumes_snd env2 files jd2 corpusB timeout hne]
  · intro c hc
    rw [process_resumes_snd env2 files jd2 _ timeout hne]
    have hm : markerChunk env2 ≠ c := by
      intro he
      have := congrArg Chunk.index_marker he
      rw [hc] at this
      exact Bool.true_eq_false.mp this
    rw [List.count_append]
    simp [List.count_cons, hm]

/-- Witness for C9 at a concrete input: two successive runs leave the fresh
batch plus one marker. -/
theorem C9_full_replace_witness :
    (process_resumes envNoIndex ["a.pdf"] "x"
        (process_resumes envNoIndex ["a.pdf"] "x" [] 1).2 1).2 =
      envNoIndex.chunker ["a.pdf"] ++ [markerChunk envNoIndex] :=
  (C9_full_replace envNoIndex envNoIndex ["a.pdf"] "x" "x" [] 1 (by decide)).1
